import Mathlib

/-!
# Verification of the incident-aware dynamic rerouting controller (SUMO.py)

A shallow embedding of the Python source `src/SUMO.py` in Lean 4, together
with theorems settling the specification claims about it.

Modelling conventions:
* Python floats are idealised as exact numbers: coordinates, lengths and
  friction coefficients are `ℚ`; distances computed through `math.sqrt`,
  `math.sin`, … live in `ℝ`.
* Python dicts keyed by strings are association lists `List (String × α)`
  together with a first-match lookup (`lookupKey`); dict assignment keeps
  the position of an existing key and appends new keys, exactly like
  Python's insertion-ordered dicts (`dictSet`).
* External effects (TraCI queries, HTTP requests, pyproj) are oracles
  passed as explicit function arguments; a Python exception raised by such
  a call is the oracle returning `none` / `.error`.
-/

open Classical

/-! ## Severity (`get_incident_severity`, `get_severity_weight`) -/

/-- The closed set of severities produced by `get_incident_severity`. -/
inductive Severity where
  | high
  | medium
  | low
deriving DecidableEq, Repr

/-- `get_severity_weight`: {"high": 3, "medium": 2, "low": 1}. -/
def get_severity_weight : Severity → Nat
  | .high => 3
  | .medium => 2
  | .low => 1

/-! ## Weather (`get_weather_for_simulation_time`, lines 288–335) -/

/-- One row of the forecast data frame: a timestamp (seconds) and a
weather classification code. -/
structure WeatherRow where
  time : Int
  weathercode : Int
deriving DecidableEq, Repr

/-- The static weather-code table `map_` shared by
`get_diverse_friction_from_weather` and `get_weather_for_simulation_time`:
code ↦ (label, friction coefficient). -/
def weather_friction_table : Int → Option (String × ℚ)
  | 0 => some ("Clear sky", 1.0)
  | 1 => some ("Mainly clear", 0.95)
  | 2 => some ("Partly cloudy", 0.9)
  | 3 => some ("Overcast", 0.85)
  | 45 => some ("Fog", 0.8)
  | 48 => some ("Dense fog", 0.65)
  | 51 => some ("Light drizzle", 0.75)
  | 53 => some ("Moderate drizzle", 0.7)
  | 55 => some ("Dense drizzle", 0.65)
  | 61 => some ("Light rain", 0.7)
  | 63 => some ("Moderate rain", 0.6)
  | 65 => some ("Heavy rain", 0.5)
  | 71 => some ("Light snow", 0.55)
  | 73 => some ("Moderate snow", 0.45)
  | 75 => some ("Heavy snow", 0.35)
  | 77 => some ("Snow grains", 0.5)
  | 80 => some ("Light rain showers", 0.65)
  | 81 => some ("Moderate rain showers", 0.55)
  | 82 => some ("Violent rain showers", 0.4)
  | 85 => some ("Light snow showers", 0.5)
  | 86 => some ("Heavy snow showers", 0.3)
  | 95 => some ("Thunderstorm", 0.45)
  | 96 => some ("Thunderstorm with hail", 0.35)
  | 99 => some ("Thunderstorm with heavy hail", 0.25)
  | _ => none

/-- `map_.get(code, ("Unknown", 1.0))`. -/
def weather_lookup (code : Int) : String × ℚ :=
  (weather_friction_table code).getD ("Unknown", 1.0)

/-- The last row of a data frame (`df.iloc[-1]`), `none` on an empty frame. -/
def lastRow {α : Type} : List α → Option α
  | [] => none
  | [a] => some a
  | _ :: b :: t => lastRow (b :: t)

/-- `forecast_df[forecast_df['time'] <= real_time_now]`. -/
def valid_forecasts (forecast : List WeatherRow) (now : Int) : List WeatherRow :=
  forecast.filter (fun r => decide (r.time ≤ now))

/-- The row-selection logic of `get_weather_for_simulation_time`:
`real_time_now = sim_start_dt + timedelta(seconds=sim_seconds)`, keep rows
whose time is not in the future, take the last of them (`iloc[-1]`), or
the first row of the whole frame (`iloc[0]`) when none qualifies. -/
def select_weather_row (forecast : List WeatherRow) (simStart simSeconds : Int) :
    Option WeatherRow :=
  let now := simStart + simSeconds
  let valid := valid_forecasts forecast now
  if valid.isEmpty then forecast.head? else lastRow valid

/-- `get_weather_for_simulation_time(forecast_df, sim_start_dt, sim_seconds)`:
returns `(friction, weather_code, weather_name)` for the selected row
(the source renders the friction as `str(friction_value)`; we keep the
exact rational). `none` models the `iloc[0]` crash on an empty frame. -/
def get_weather_for_simulation_time (forecast : List WeatherRow)
    (simStart simSeconds : Int) : Option (ℚ × Int × String) :=
  match select_weather_row forecast simStart simSeconds with
  | none => none
  | some row =>
    let nf := weather_lookup row.weathercode
    some (nf.2, row.weathercode, nf.1)

/-! ### Helper lemmas about `lastRow`, `head?` and sorted forecasts -/

lemma lastRow_ne_none {α : Type} (l : List α) (h : l ≠ []) :
    ∃ a, lastRow l = some a := by
  induction l with
  | nil => exact absurd rfl h
  | cons x t ih =>
    cases t with
    | nil => exact ⟨x, rfl⟩
    | cons y u =>
      obtain ⟨a, ha⟩ := ih (by simp)
      exact ⟨a, by simpa [lastRow] using ha⟩

lemma lastRow_mem {α : Type} {l : List α} {a : α} (h : lastRow l = some a) :
    a ∈ l := by
  induction l with
  | nil => simp [lastRow] at h
  | cons x t ih =>
    cases t with
    | nil =>
      simp [lastRow] at h
      simp [h]
    | cons y u =>
      rw [show lastRow (x :: y :: u) = lastRow (y :: u) from rfl] at h
      exact List.mem_cons_of_mem x (ih h)

lemma lastRow_ge {l : List WeatherRow} {a : WeatherRow}
    (hs : l.Pairwise (fun p q => p.time ≤ q.time)) (h : lastRow l = some a) :
    ∀ x ∈ l, x.time ≤ a.time := by
  induction l with
  | nil => simp
  | cons x t ih =>
    cases t with
    | nil =>
      simp [lastRow] at h
      intro z hz
      simp at hz
      subst hz
      simp [h]
    | cons y u =>
      have h' : lastRow (y :: u) = some a := h
      have hs' := List.pairwise_cons.mp hs
      intro z hz
      rcases List.mem_cons.mp hz with rfl | hz'
      · exact hs'.1 a (lastRow_mem h')
      · exact ih hs'.2 h' z hz'

lemma head_le {l : List WeatherRow} {a : WeatherRow}
    (hs : l.Pairwise (fun p q => p.time ≤ q.time)) (h : l.head? = some a) :
    ∀ x ∈ l, a.time ≤ x.time := by
  cases l with
  | nil => simp at h
  | cons x t =>
    simp at h
    subst h
    intro z hz
    rcases List.mem_cons.mp hz with rfl | hz'
    · exact le_refl _
    · exact (List.pairwise_cons.mp hs).1 z hz'

lemma mem_valid_forecasts {forecast : List WeatherRow} {now : Int} {r : WeatherRow} :
    r ∈ valid_forecasts forecast now ↔ r ∈ forecast ∧ r.time ≤ now := by
  simp [valid_forecasts, List.mem_filter]

lemma valid_forecasts_sorted {forecast : List WeatherRow} {now : Int}
    (hs : forecast.Pairwise (fun p q => p.time ≤ q.time)) :
    (valid_forecasts forecast now).Pairwise (fun p q => p.time ≤ q.time) :=
  List.Pairwise.sublist (List.filter_sublist forecast) hs

lemma select_weather_row_mem {forecast : List WeatherRow} {simStart simSeconds : Int}
    {r : WeatherRow} (h : select_weather_row forecast simStart simSeconds = some r) :
    r ∈ forecast := by
  by_cases hv : (valid_forecasts forecast (simStart + simSeconds)).isEmpty
  · rw [select_weather_row, if_pos hv] at h
    exact List.mem_of_mem_head? h
  · rw [select_weather_row, if_neg hv] at h
    exact (mem_valid_forecasts.mp (lastRow_mem h)).1

/-- Claim C3: for a non-empty (time-ascending, per the data model) forecast,
`get_weather_for_simulation_time` resolves the sample with the greatest
timestamp ≤ anchor + elapsed, and falls back to the earliest sample when
every timestamp is in the future. -/
theorem C3_resolve_latest_not_future (forecast : List WeatherRow)
    (simStart simSeconds : Int) (hne : forecast ≠ [])
    (hsorted : forecast.Pairwise (fun p q => p.time ≤ q.time)) :
    ∃ r, select_weather_row forecast simStart simSeconds = some r ∧
      r ∈ forecast ∧
      get_weather_for_simulation_time forecast simStart simSeconds =
        some ((weather_lookup r.weathercode).2, r.weathercode,
          (weather_lookup r.weathercode).1) ∧
      ((∃ s ∈ forecast, s.time ≤ simStart + simSeconds) →
        r.time ≤ simStart + simSeconds ∧
          ∀ s ∈ forecast, s.time ≤ simStart + simSeconds → s.time ≤ r.time) ∧
      ((∀ s ∈ forecast, simStart + simSeconds < s.time) →
        forecast.head? = some r) := by
  by_cases hv : (valid_forecasts forecast (simStart + simSeconds)).isEmpty
  · -- no sample is ≤ now: the first row is returned
    have hsel : select_weather_row forecast simStart simSeconds = forecast.head? := by
      rw [select_weather_row, if_pos hv]
    obtain ⟨r, hr⟩ : ∃ r, forecast.head? = some r := by
      cases forecast with
      | nil => exact absurd rfl hne
      | cons x t => exact ⟨x, rfl⟩
    refine ⟨r, hsel.trans hr, List.mem_of_mem_head? hr, ?_, ?_, fun _ => hr⟩
    · rw [get_weather_for_simulation_time, hsel.trans hr]
    · rintro ⟨s, hs, hsle⟩
      exact absurd (mem_valid_forecasts.mpr ⟨hs, hsle⟩)
        (by simp [List.isEmpty_iff.mp hv])
  · -- at least one sample is ≤ now: the last valid row is returned
    have hvne : valid_forecasts forecast (simStart + simSeconds) ≠ [] := by
      simpa [List.isEmpty_iff] using hv
    obtain ⟨r, hr⟩ := lastRow_ne_none _ hvne
    have hsel : select_weather_row forecast simStart simSeconds = some r := by
      rw [select_weather_row, if_neg hv]
      exact hr
    have hmem := mem_valid_forecasts.mp (lastRow_mem hr)
    refine ⟨r, hsel, hmem.1, ?_, fun _ => ⟨hmem.2, ?_⟩, fun hall => ?_⟩
    · rw [get_weather_for_simulation_time, hsel]
    · intro s hs hsle
      exact lastRow_ge (valid_forecasts_sorted hsorted) hr s
        (mem_valid_forecasts.mpr ⟨hs, hsle⟩)
    · exact absurd hmem.2 (by simpa using hall r hmem.1)

/-- Witness for C3, the spec's own scenario: forecast `[(0, clear), (900,
heavy rain)]`, anchor 0, elapsed 1800 seconds; the `t = 900` sample is
still returned. -/
theorem C3_resolve_latest_not_future_witness :
    (([⟨0, 0⟩, ⟨900, 65⟩] : List WeatherRow) ≠ []) ∧
    (([⟨0, 0⟩, ⟨900, 65⟩] : List WeatherRow).Pairwise (fun p q => p.time ≤ q.time)) ∧
    ∃ r, select_weather_row [⟨0, 0⟩, ⟨900, 65⟩] 0 1800 = some r ∧
      r ∈ ([⟨0, 0⟩, ⟨900, 65⟩] : List WeatherRow) ∧
      get_weather_for_simulation_time [⟨0, 0⟩, ⟨900, 65⟩] 0 1800 =
        some ((weather_lookup r.weathercode).2, r.weathercode,
          (weather_lookup r.weathercode).1) ∧
      ((∃ s ∈ ([⟨0, 0⟩, ⟨900, 65⟩] : List WeatherRow), s.time ≤ 0 + 1800) →
        r.time ≤ 0 + 1800 ∧
          ∀ s ∈ ([⟨0, 0⟩, ⟨900, 65⟩] : List WeatherRow),
            s.time ≤ 0 + 1800 → s.time ≤ r.time) ∧
      ((∀ s ∈ ([⟨0, 0⟩, ⟨900, 65⟩] : List WeatherRow), 0 + 1800 < s.time) →
        ([⟨0, 0⟩, ⟨900, 65⟩] : List WeatherRow).head? = some r) :=
  ⟨by simp, by simp, C3_resolve_latest_not_future _ 0 1800 (by simp)
    (by simp [List.pairwise_cons])⟩

/-- Claim C7: weather resolution is idempotent (it is a pure function of
the forecast/anchor/elapsed triple) and, on a time-ascending forecast,
the resolved sample's timestamp is monotone in elapsed time. -/
theorem C7_resolve_idempotent_monotone (forecast : List WeatherRow)
    (simStart : Int)
    (hsorted : forecast.Pairwise (fun p q => p.time ≤ q.time))
    (t1 t2 : Int) (hlt : t1 < t2) :
    get_weather_for_simulation_time forecast simStart t1 =
      get_weather_for_simulation_time forecast simStart t1 ∧
    ∀ r1 r2, select_weather_row forecast simStart t1 = some r1 →
      select_weather_row forecast simStart t2 = some r2 →
      r1.time ≤ r2.time := by
  refine ⟨rfl, fun r1 r2 h1 h2 => ?_⟩
  have hmono : simStart + t1 ≤ simStart + t2 := by omega
  by_cases hv1 : (valid_forecasts forecast (simStart + t1)).isEmpty
  · -- at t1 the fallback row (the earliest sample) was returned
    rw [select_weather_row, if_pos hv1] at h1
    exact head_le hsorted h1 r2 (select_weather_row_mem h2)
  · -- at t1 a valid row was returned; it is still valid at t2
    rw [select_weather_row, if_neg hv1] at h1
    have hmem1 := mem_valid_forecasts.mp (lastRow_mem h1)
    have hmem2 : r1 ∈ valid_forecasts forecast (simStart + t2) :=
      mem_valid_forecasts.mpr ⟨hmem1.1, le_trans hmem1.2 hmono⟩
    have hv2 : ¬ (valid_forecasts forecast (simStart + t2)).isEmpty := by
      simp only [List.isEmpty_iff]
      intro hc
      rw [hc] at hmem2
      simp at hmem2
    rw [select_weather_row, if_neg hv2] at h2
    exact lastRow_ge (valid_forecasts_sorted hsorted) h2 r1 hmem2

/-- Witness for C7 at the spec scenario forecast, elapsed times 0 < 900. -/
theorem C7_resolve_idempotent_monotone_witness :
    (([⟨0, 0⟩, ⟨900, 65⟩] : List WeatherRow).Pairwise (fun p q => p.time ≤ q.time)) ∧
    ((0 : Int) < 900) ∧
    (get_weather_for_simulation_time [⟨0, 0⟩, ⟨900, 65⟩] 0 0 =
      get_weather_for_simulation_time [⟨0, 0⟩, ⟨900, 65⟩] 0 0 ∧
    ∀ r1 r2, select_weather_row [⟨0, 0⟩, ⟨900, 65⟩] 0 0 = some r1 →
      select_weather_row [⟨0, 0⟩, ⟨900, 65⟩] 0 900 = some r2 →
      r1.time ≤ r2.time) :=
  ⟨by simp [List.pairwise_cons], by norm_num,
    C7_resolve_idempotent_monotone _ 0 (by simp [List.pairwise_cons]) 0 900
      (by norm_num)⟩

/-! ## Incidents and geometry (`haversine`, lines 371–377; incident dicts) -/

/-- An incident dict as built in `get_incidents` (lines 542–557).  The
optional `localXY` models the `local_x`/`local_y` keys, present exactly
when `convert_gps_to_local` succeeded.  The derived, unused `location`
string is omitted. -/
structure Incident where
  id : String
  title : String
  latitude : ℚ
  longitude : ℚ
  /-- the source dict's `"type"` key (the service name). -/
  category : String
  area : String
  severity : Severity
  timestamp : String
  localXY : Option (ℚ × ℚ)
deriving DecidableEq, Repr

/-- An entry of the edge-centers dict (lines 500–504). -/
structure EdgeData where
  x : ℚ
  y : ℚ
  length : ℚ
deriving DecidableEq, Repr

/-- `math.atan2`. -/
noncomputable def atan2 (y x : ℝ) : ℝ :=
  if 0 < x then Real.arctan (y / x)
  else if x < 0 then
    (if 0 ≤ y then Real.arctan (y / x) + Real.pi else Real.arctan (y / x) - Real.pi)
  else if 0 < y then Real.pi / 2
  else if y < 0 then -(Real.pi / 2)
  else 0

/-- `math.radians`. -/
noncomputable def radians (d : ℝ) : ℝ := d * Real.pi / 180

/-- `haversine(lat1, lon1, lat2, lon2)` (lines 371–377), in kilometres. -/
noncomputable def haversine (lat1 lon1 lat2 lon2 : ℝ) : ℝ :=
  let R : ℝ := 6371
  let dlat := radians (lat2 - lat1)
  let dlon := radians (lon2 - lon1)
  let a := Real.sin (dlat / 2) ^ 2 +
    Real.cos (radians lat1) * Real.cos (radians lat2) * Real.sin (dlon / 2) ^ 2
  let c := 2 * atan2 (Real.sqrt a) (Real.sqrt (1 - a))
  R * c

/-! ## Deduplication (`remove_duplicate_incidents`, lines 424–449) -/

/-- The pairwise distance used by `remove_duplicate_incidents` (metres):
Euclidean in local coordinates when both incidents carry them, otherwise
the GPS great-circle distance (`haversine * 1000`). -/
noncomputable def dedup_distance (inc existing : Incident) : ℝ :=
  match inc.localXY, existing.localXY with
  | some (ix, iy), some (ex, ey) =>
    Real.sqrt (((ix : ℝ) - (ex : ℝ)) ^ 2 + ((iy : ℝ) - (ey : ℝ)) ^ 2)
  | _, _ =>
    haversine (inc.latitude : ℝ) (inc.longitude : ℝ)
      (existing.latitude : ℝ) (existing.longitude : ℝ) * 1000

/-- `distance < min_distance and incident["title"] == existing["title"]`
with `min_distance = 100`. -/
def is_duplicate_of (inc existing : Incident) : Prop :=
  dedup_distance inc existing < 100 ∧ inc.title = existing.title

/-- The inner loop of `remove_duplicate_incidents`: is some already-kept
incident a duplicate of `inc`? -/
def has_duplicate_in (inc : Incident) (uniques : List Incident) : Prop :=
  ∃ e ∈ uniques, is_duplicate_of inc e

/-- `remove_duplicate_incidents(incidents)`: keep each incident unless an
already-kept one is within 100 m and has the same title. -/
noncomputable def remove_duplicate_incidents (incidents : List Incident) :
    List Incident :=
  incidents.foldl
    (fun uniques inc =>
      if has_duplicate_in inc uniques then uniques else uniques ++ [inc]) []

/-! ### Deduplication lemmas (claim C4) -/

lemma haversine_symm (lat1 lon1 lat2 lon2 : ℝ) :
    haversine lat2 lon2 lat1 lon1 = haversine lat1 lon1 lat2 lon2 := by
  have ha : Real.sin (radians (lat1 - lat2) / 2) ^ 2 +
      Real.cos (radians lat2) * Real.cos (radians lat1) *
        Real.sin (radians (lon1 - lon2) / 2) ^ 2 =
      Real.sin (radians (lat2 - lat1) / 2) ^ 2 +
      Real.cos (radians lat1) * Real.cos (radians lat2) *
        Real.sin (radians (lon2 - lon1) / 2) ^ 2 := by
    have h1 : radians (lat1 - lat2) / 2 = -(radians (lat2 - lat1) / 2) := by
      unfold radians; ring
    have h2 : radians (lon1 - lon2) / 2 = -(radians (lon2 - lon1) / 2) := by
      unfold radians; ring
    rw [h1, h2, Real.sin_neg, Real.sin_neg]
    ring
  simp only [haversine]
  rw [ha]

lemma dedup_distance_symm (a b : Incident) :
    dedup_distance a b = dedup_distance b a := by
  rcases ha : a.localXY with _ | ⟨ax, ay⟩ <;>
    rcases hb : b.localXY with _ | ⟨bx, bb⟩ <;>
      simp only [dedup_distance, ha, hb, haversine_symm]
  congr 1
  ring

lemma is_duplicate_of_symm {a b : Incident} (h : is_duplicate_of a b) :
    is_duplicate_of b a :=
  ⟨by rw [dedup_distance_symm]; exact h.1, h.2.symm⟩

lemma dedup_fold_pairwise (l : List Incident) :
    ∀ acc : List Incident, acc.Pairwise (fun a b => ¬ is_duplicate_of b a) →
    (l.foldl (fun uniques inc =>
        if has_duplicate_in inc uniques then uniques else uniques ++ [inc])
      acc).Pairwise (fun a b => ¬ is_duplicate_of b a) := by
  induction l with
  | nil => exact fun acc h => h
  | cons x t ih =>
    intro acc h
    simp only [List.foldl_cons]
    by_cases hd : has_duplicate_in x acc
    · rw [if_pos hd]
      exact ih acc h
    · rw [if_neg hd]
      apply ih
      rw [List.pairwise_append]
      refine ⟨h, by simp, ?_⟩
      intro a ha b hb
      rw [List.mem_singleton] at hb
      subst hb
      exact fun hdup => hd ⟨a, ha, hdup⟩

/-- Counterexample to claim C4 as stated: three same-title incidents at
local x-positions 0, 90 and 95.  The second and third are 5 m apart with
identical titles, yet deduplication retains neither of them (both are
dropped as duplicates of the first), so "exactly one is retained" fails
for that pair. -/
def cexA : Incident :=
  { id := "A2_warning_0", title := "Sperrung", latitude := 52, longitude := 10,
    category := "warning", area := "A2", severity := .high, timestamp := "",
    localXY := some (0, 0) }

/-- Second dedup counterexample incident (local (90, 0)). -/
def cexB : Incident :=
  { id := "A2_warning_1", title := "Sperrung", latitude := 52, longitude := 10,
    category := "warning", area := "A2", severity := .high, timestamp := "",
    localXY := some (90, 0) }

/-- Third dedup counterexample incident (local (95, 0)). -/
def cexC : Incident :=
  { id := "A2_warning_2", title := "Sperrung", latitude := 52, longitude := 10,
    category := "warning", area := "A2", severity := .high, timestamp := "",
    localXY := some (95, 0) }

lemma dedup_distance_cexB_cexA : dedup_distance cexB cexA < 100 := by
  simp only [dedup_distance, cexB, cexA]
  rw [Real.sqrt_lt' (by norm_num : (0:ℝ) < 100)]
  push_cast
  norm_num

lemma dedup_distance_cexC_cexA : dedup_distance cexC cexA < 100 := by
  simp only [dedup_distance, cexC, cexA]
  rw [Real.sqrt_lt' (by norm_num : (0:ℝ) < 100)]
  push_cast
  norm_num

lemma remove_dup_cex : remove_duplicate_incidents [cexA, cexB, cexC] = [cexA] := by
  have h1 : ¬ has_duplicate_in cexA [] := by simp [has_duplicate_in]
  have h2 : has_duplicate_in cexB [cexA] :=
    ⟨cexA, by simp, dedup_distance_cexB_cexA, rfl⟩
  have h3 : has_duplicate_in cexC [cexA] :=
    ⟨cexA, by simp, dedup_distance_cexC_cexA, rfl⟩
  simp only [remove_duplicate_incidents, List.foldl_cons, List.foldl_nil]
  rw [if_neg h1]
  simp only [List.nil_append]
  rw [if_pos h2, if_pos h3]

/-- Counterexample to claim C4 as stated: `cexB` and `cexC` have identical
titles, both carry local coordinates, their separation is 5 m < 100 m, yet
deduplication retains neither of the pair ("exactly one" fails). -/
theorem C4_dedup_counterexample :
    cexB.title = cexC.title ∧
    cexB.localXY.isSome ∧ cexC.localXY.isSome ∧
    dedup_distance cexB cexC < 100 ∧
    remove_duplicate_incidents [cexA, cexB, cexC] = [cexA] ∧
    cexB ∉ remove_duplicate_incidents [cexA, cexB, cexC] ∧
    cexC ∉ remove_duplicate_incidents [cexA, cexB, cexC] := by
  refine ⟨rfl, rfl, rfl, ?_, remove_dup_cex, ?_, ?_⟩
  · simp only [dedup_distance, cexB, cexC]
    rw [Real.sqrt_lt' (by norm_num : (0:ℝ) < 100)]
    push_cast
    norm_num
  · rw [remove_dup_cex]
    decide
  · rw [remove_dup_cex]
    decide

/-- Claim C4 (amended): two incidents in the same batch are duplicates iff
identical title and separation below 100 m (local coordinates when both
have them, else GPS), the first-seen of a duplicate pair is kept, and for
any two incidents with identical titles and separation < 100 m AT MOST one
is retained (a chain of pairwise-close duplicates can drop both members of
a pair while retaining only its first element). -/
theorem C4_dedup_at_most_one (l : List Incident) (a b : Incident)
    (ha : a ∈ remove_duplicate_incidents l)
    (hb : b ∈ remove_duplicate_incidents l)
    (htitle : a.title = b.title) (hdist : dedup_distance a b < 100) :
    a = b := by
  by_contra hne
  have hp : (remove_duplicate_incidents l).Pairwise
      (fun a b => ¬ is_duplicate_of b a) :=
    dedup_fold_pairwise l [] List.Pairwise.nil
  have hsymm : Symmetric (fun a b : Incident => ¬ is_duplicate_of b a) :=
    fun x y h hdup => h (is_duplicate_of_symm hdup)
  exact List.Pairwise.forall hsymm hp ha hb hne
    ⟨by rw [dedup_distance_symm]; exact hdist, htitle.symm⟩

/-- Witness for the amended C4 at a concrete batch: the single incident
`cexA` is retained, matches itself in title and distance, and the theorem
yields the (forced) equality. -/
theorem C4_dedup_at_most_one_witness :
    cexA ∈ remove_duplicate_incidents [cexA] ∧
    cexA.title = cexA.title ∧
    dedup_distance cexA cexA < 100 ∧
    cexA = cexA := by
  have hmem : cexA ∈ remove_duplicate_incidents [cexA] := by
    simp [remove_duplicate_incidents, has_duplicate_in]
  have hdist : dedup_distance cexA cexA < 100 := by
    simp only [dedup_distance, cexA]
    rw [Real.sqrt_lt' (by norm_num : (0:ℝ) < 100)]
    push_cast
    norm_num
  exact ⟨hmem, rfl, hdist,
    C4_dedup_at_most_one [cexA] cexA cexA hmem hmem rfl hdist⟩

/-! ## Association-list model of Python dicts -/

/-- First-match lookup in an association list (Python `d[k]` / `k in d`). -/
def lookupKey {α : Type} (k : String) : List (String × α) → Option α
  | [] => none
  | p :: rest => if p.1 = k then some p.2 else lookupKey k rest

/-- Python dict assignment `d[k] = v`: replace in place when the key is
present, append otherwise (insertion order preserved). -/
def dictSet {α : Type} (m : List (String × α)) (k : String) (v : α) :
    List (String × α) :=
  if (lookupKey k m).isSome then
    m.map (fun p => if p.1 = k then (k, v) else p)
  else m ++ [(k, v)]

lemma lookupKey_map_replace_self {α : Type} {k : String} {v : α} :
    ∀ m : List (String × α), (lookupKey k m).isSome →
      lookupKey k (m.map (fun p => if p.1 = k then (k, v) else p)) = some v := by
  intro m
  induction m with
  | nil => simp [lookupKey]
  | cons p rest ih =>
    intro h
    by_cases hp : p.1 = k
    · simp [lookupKey, hp]
    · rw [lookupKey, if_neg hp] at h
      simpa [lookupKey, hp] using ih h

lemma lookupKey_map_replace_other {α : Type} {k k' : String} {v : α}
    (hne : k' ≠ k) :
    ∀ m : List (String × α),
      lookupKey k' (m.map (fun p => if p.1 = k then (k, v) else p)) =
        lookupKey k' m := by
  intro m
  induction m with
  | nil => simp [lookupKey]
  | cons p rest ih =>
    by_cases hp : p.1 = k
    · have hp' : ¬ p.1 = k' := fun hc => hne (hc ▸ hp ▸ rfl)
      have hkk : ¬ k = k' := fun hc => hne hc.symm
      simp only [List.map_cons, if_pos hp, lookupKey, if_neg hkk, if_neg hp']
      exact ih
    · by_cases hp' : p.1 = k'
      · simp [lookupKey, hp, hp', hne]
      · simp only [List.map_cons, if_neg hp, lookupKey, if_neg hp']
        exact ih

lemma lookupKey_append_single_other {α : Type} {k k' : String} {v : α}
    (hne : k' ≠ k) :
    ∀ m : List (String × α), lookupKey k' (m ++ [(k, v)]) = lookupKey k' m := by
  intro m
  induction m with
  | nil =>
    have hkk : ¬ k = k' := fun hc => hne hc.symm
    simp [lookupKey, hkk]
  | cons p rest ih =>
    by_cases hp : p.1 = k'
    · simp [lookupKey, hp]
    · simp only [List.cons_append, lookupKey, if_neg hp]
      exact ih

lemma lookupKey_append_single_self {α : Type} {k : String} {v : α} :
    ∀ m : List (String × α), lookupKey k m = none →
      lookupKey k (m ++ [(k, v)]) = some v := by
  intro m
  induction m with
  | nil => simp [lookupKey]
  | cons p rest ih =>
    intro h
    by_cases hp : p.1 = k
    · rw [lookupKey, if_pos hp] at h
      exact absurd h (by simp)
    · rw [lookupKey, if_neg hp] at h
      simpa [lookupKey, hp] using ih h

lemma lookupKey_dictSet_self {α : Type} (m : List (String × α)) (k : String)
    (v : α) : lookupKey k (dictSet m k v) = some v := by
  rw [dictSet]
  by_cases h : (lookupKey k m).isSome
  · rw [if_pos h]
    exact lookupKey_map_replace_self m h
  · rw [if_neg h]
    exact lookupKey_append_single_self m (Option.not_isSome_iff_eq_none.mp h)

lemma lookupKey_dictSet_other {α : Type} (m : List (String × α)) (k k' : String)
    (v : α) (hne : k' ≠ k) : lookupKey k' (dictSet m k v) = lookupKey k' m := by
  rw [dictSet]
  by_cases h : (lookupKey k m).isSome
  · rw [if_pos h]
    exact lookupKey_map_replace_other hne m
  · rw [if_neg h]
    exact lookupKey_append_single_other hne m

/-! ## Impact correlation (`get_affected_route_edges`, lines 576–625) -/

/-- The per-severity base radius (lines 584–589): 200 m for closures,
100 m for construction, 50 m for minor incidents. -/
def base_radius : Severity → ℚ
  | .high => 200
  | .medium => 100
  | .low => 50

/-- The incident-to-edge distance (lines 601–617): Euclidean in local
coordinates when the incident has them, else the great-circle distance
between the incident GPS point and the edge position approximated as
`(x/111000, y/111000)`, in metres. -/
noncomputable def incident_edge_distance (inc : Incident) (d : EdgeData) : ℝ :=
  match inc.localXY with
  | some (ix, iy) =>
    Real.sqrt (((ix : ℝ) - (d.x : ℝ)) ^ 2 + ((iy : ℝ) - (d.y : ℝ)) ^ 2)
  | none =>
    haversine (inc.latitude : ℝ) (inc.longitude : ℝ)
      ((d.x : ℝ) / 111000) ((d.y : ℝ) / 111000) * 1000

/-- The dynamic detection radius (lines 610 and 618):
`base + min(edge_length * 0.1, 100)` with local coordinates,
`base * 2` on the GPS fallback path. -/
noncomputable def dynamic_radius (inc : Incident) (d : EdgeData) : ℝ :=
  match inc.localXY with
  | some _ => (base_radius inc.severity : ℝ) + min ((d.length : ℝ) * 0.1) 100
  | none => (base_radius inc.severity : ℝ) * 2

/-- `distance <= dynamic_radius` (line 620). -/
def covers (inc : Incident) (d : EdgeData) : Prop :=
  incident_edge_distance inc d ≤ dynamic_radius inc d

/-- Lines 621–623: record the edge unless an at-least-as-severe incident
already claimed it. -/
def update_affected (m : List (String × Severity)) (edge : String)
    (severity : Severity) : List (String × Severity) :=
  match lookupKey edge m with
  | none => dictSet m edge severity
  | some s =>
    if get_severity_weight severity > get_severity_weight s then
      dictSet m edge severity
    else m

/-- The inner loop over `centers.items()` for one incident. -/
noncomputable def apply_incident (inc : Incident)
    (centers : List (String × EdgeData)) (m : List (String × Severity)) :
    List (String × Severity) :=
  centers.foldl
    (fun m p => if covers inc p.2 then update_affected m p.1 inc.severity else m)
    m

/-- `get_affected_route_edges(incidents, centers)` (the unused
`radius_km=1.0` default parameter is dropped). -/
noncomputable def get_affected_route_edges (incidents : List Incident)
    (centers : List (String × EdgeData)) : List (String × Severity) :=
  incidents.foldl (fun m inc => apply_incident inc centers m) []

/-- Incident `inc` puts edge `e` of `centers` within its dynamic radius. -/
def edge_qualifies (inc : Incident) (e : String)
    (centers : List (String × EdgeData)) : Prop :=
  ∃ d, (e, d) ∈ centers ∧ covers inc d

/-! ### Correlation lemmas (claims C1 and C2) -/

/-- The severity kept after one more qualifying incident of severity `s`. -/
def omax : Option Severity → Severity → Severity
  | none, s => s
  | some c, s =>
    if get_severity_weight s > get_severity_weight c then s else c

lemma omax_right_le (acc : Option Severity) (s : Severity) :
    get_severity_weight s ≤ get_severity_weight (omax acc s) := by
  cases acc with
  | none => exact le_refl _
  | some c => cases c <;> cases s <;> decide

lemma omax_left_le (c : Severity) (s : Severity) :
    get_severity_weight c ≤ get_severity_weight (omax (some c) s) := by
  cases c <;> cases s <;> decide

lemma omax_absorb (acc : Option Severity) (s : Severity) :
    omax (some (omax acc s)) s = omax acc s := by
  cases acc with
  | none => cases s <;> decide
  | some c => cases c <;> cases s <;> decide

lemma lookupKey_update_self (m : List (String × Severity)) (e : String)
    (s : Severity) :
    lookupKey e (update_affected m e s) = some (omax (lookupKey e m) s) := by
  cases h : lookupKey e m with
  | none =>
    simp only [update_affected, h, omax]
    exact lookupKey_dictSet_self m e s
  | some c =>
    simp only [update_affected, h, omax]
    by_cases hw : get_severity_weight s > get_severity_weight c
    · rw [if_pos hw, if_pos hw, lookupKey_dictSet_self]
    · rw [if_neg hw, if_neg hw, h]

lemma lookupKey_update_other (m : List (String × Severity)) (e e' : String)
    (s : Severity) (hne : e' ≠ e) :
    lookupKey e' (update_affected m e s) = lookupKey e' m := by
  cases h : lookupKey e m with
  | none =>
    simp only [update_affected, h]
    exact lookupKey_dictSet_other _ _ _ _ hne
  | some c =>
    simp only [update_affected, h]
    by_cases hw : get_severity_weight s > get_severity_weight c
    · rw [if_pos hw, lookupKey_dictSet_other _ _ _ _ hne]
    · rw [if_neg hw]

lemma apply_incident_lookup (inc : Incident) (e : String) :
    ∀ (cs : List (String × EdgeData)) (m : List (String × Severity)),
    lookupKey e (apply_incident inc cs m) =
      if edge_qualifies inc e cs then some (omax (lookupKey e m) inc.severity)
      else lookupKey e m := by
  intro cs
  induction cs with
  | nil =>
    intro m
    rw [if_neg]
    · rfl
    · rintro ⟨d, hd, _⟩
      simp at hd
  | cons p rest ih =>
    intro m
    have hstep : apply_incident inc (p :: rest) m =
        apply_incident inc rest
          (if covers inc p.2 then update_affected m p.1 inc.severity else m) := by
      rw [apply_incident, apply_incident, List.foldl_cons]
    rw [hstep, ih]
    by_cases hc : covers inc p.2
    · by_cases hpe : p.1 = e
      · -- the head pair hits edge e
        have hqcons : edge_qualifies inc e (p :: rest) :=
          ⟨p.2, by rw [← hpe]; exact List.mem_cons_self p rest, hc⟩
        have hlm : lookupKey e (if covers inc p.2 then
            update_affected m p.1 inc.severity else m) =
            some (omax (lookupKey e m) inc.severity) := by
          rw [if_pos hc, hpe, lookupKey_update_self]
        by_cases hq : edge_qualifies inc e rest
        · rw [if_pos hq, if_pos hqcons, hlm, omax_absorb]
        · rw [if_neg hq, if_pos hqcons, hlm]
      · -- the head pair is another edge
        have hlm : lookupKey e (if covers inc p.2 then
            update_affected m p.1 inc.severity else m) = lookupKey e m := by
          rw [if_pos hc]
          exact lookupKey_update_other m p.1 e inc.severity fun h => hpe h.symm
        have hqiff : edge_qualifies inc e (p :: rest) ↔
            edge_qualifies inc e rest := by
          constructor
          · rintro ⟨d, hd, hcov⟩
            rcases List.mem_cons.mp hd with heq | hmem
            · exact absurd (congrArg Prod.fst heq.symm) hpe
            · exact ⟨d, hmem, hcov⟩
          · rintro ⟨d, hd, hcov⟩
            exact ⟨d, List.mem_cons_of_mem p hd, hcov⟩
        rw [hlm]
        by_cases hq : edge_qualifies inc e rest
        · rw [if_pos hq, if_pos (hqiff.mpr hq)]
        · rw [if_neg hq, if_neg fun hcq => hq (hqiff.mp hcq)]
    · -- the head pair is not covered
      have hlm : lookupKey e (if covers inc p.2 then
          update_affected m p.1 inc.severity else m) = lookupKey e m := by
        rw [if_neg hc]
      have hqiff : edge_qualifies inc e (p :: rest) ↔
          edge_qualifies inc e rest := by
        constructor
        · rintro ⟨d, hd, hcov⟩
          rcases List.mem_cons.mp hd with heq | hmem
          · exact absurd hcov (by rw [show d = p.2 from congrArg Prod.snd heq]; exact hc)
          · exact ⟨d, hmem, hcov⟩
        · rintro ⟨d, hd, hcov⟩
          exact ⟨d, List.mem_cons_of_mem p hd, hcov⟩
      rw [hlm]
      by_cases hq : edge_qualifies inc e rest
      · rw [if_pos hq, if_pos (hqiff.mpr hq)]
      · rw [if_neg hq, if_neg fun hcq => hq (hqiff.mp hcq)]

lemma affected_fold_lookup (cs : List (String × EdgeData)) (e : String) :
    ∀ (incs : List Incident) (m : List (String × Severity)),
    lookupKey e (incs.foldl (fun m inc => apply_incident inc cs m) m) =
      incs.foldl (fun acc inc =>
        if edge_qualifies inc e cs then some (omax acc inc.severity) else acc)
        (lookupKey e m) := by
  intro incs
  induction incs with
  | nil => intro m; rfl
  | cons i rest ih =>
    intro m
    simp only [List.foldl_cons]
    rw [ih, apply_incident_lookup]

lemma fold_isSome (e : String) (cs : List (String × EdgeData)) :
    ∀ (incs : List Incident) (acc : Option Severity),
    (incs.foldl (fun acc inc =>
      if edge_qualifies inc e cs then some (omax acc inc.severity) else acc)
      acc).isSome ↔
    acc.isSome ∨ ∃ i ∈ incs, edge_qualifies i e cs := by
  intro incs
  induction incs with
  | nil =>
    intro acc
    simp
  | cons i rest ih =>
    intro acc
    simp only [List.foldl_cons]
    rw [ih]
    by_cases hq : edge_qualifies i e cs
    · rw [if_pos hq]
      constructor
      · intro _
        exact Or.inr ⟨i, List.mem_cons_self i rest, hq⟩
      · intro _
        exact Or.inl rfl
    · rw [if_neg hq]
      constructor
      · rintro (h | ⟨j, hj, hqj⟩)
        · exact Or.inl h
        · exact Or.inr ⟨j, List.mem_cons_of_mem i hj, hqj⟩
      · rintro (h | ⟨j, hj, hqj⟩)
        · exact Or.inl h
        · rcases List.mem_cons.mp hj with rfl | hj'
          · exact absurd hqj hq
          · exact Or.inr ⟨j, hj', hqj⟩

lemma affected_isSome_iff (incs : List Incident) (cs : List (String × EdgeData))
    (e : String) :
    (lookupKey e (get_affected_route_edges incs cs)).isSome ↔
      ∃ i ∈ incs, edge_qualifies i e cs := by
  rw [get_affected_route_edges, affected_fold_lookup, fold_isSome]
  simp [lookupKey]

lemma fold_some_sound (e : String) (cs : List (String × EdgeData)) :
    ∀ (incs : List Incident) (acc : Option Severity) (s : Severity),
    incs.foldl (fun acc inc =>
      if edge_qualifies inc e cs then some (omax acc inc.severity) else acc)
      acc = some s →
    ((acc = some s ∨ ∃ i ∈ incs, edge_qualifies i e cs ∧ i.severity = s) ∧
     (∀ c, acc = some c → get_severity_weight c ≤ get_severity_weight s) ∧
     (∀ i ∈ incs, edge_qualifies i e cs →
        get_severity_weight i.severity ≤ get_severity_weight s)) := by
  intro incs
  induction incs with
  | nil =>
    intro acc s h
    simp only [List.foldl_nil] at h
    refine ⟨Or.inl h, fun c hc => ?_, fun i hi => absurd hi (by simp)⟩
    obtain rfl : c = s := by rw [hc] at h; exact Option.some.inj h
    exact le_refl _
  | cons i rest ih =>
    intro acc s h
    simp only [List.foldl_cons] at h
    by_cases hq : edge_qualifies i e cs
    · rw [if_pos hq] at h
      obtain ⟨h1, h2, h3⟩ := ih (some (omax acc i.severity)) s h
      have hOm : get_severity_weight (omax acc i.severity) ≤
          get_severity_weight s := h2 _ rfl
      refine ⟨?_, ?_, ?_⟩
      · rcases h1 with heq | ⟨j, hj, hqj, hsj⟩
        · have heq' := Option.some.inj heq
          cases acc with
          | none =>
            exact Or.inr ⟨i, List.mem_cons_self i rest, hq, heq'⟩
          | some c =>
            by_cases hw : get_severity_weight i.severity > get_severity_weight c
            · simp only [omax, if_pos hw] at heq'
              exact Or.inr ⟨i, List.mem_cons_self i rest, hq, heq'⟩
            · simp only [omax, if_neg hw] at heq'
              exact Or.inl (by rw [heq'])
        · exact Or.inr ⟨j, List.mem_cons_of_mem i hj, hqj, hsj⟩
      · intro c hc
        have hle : get_severity_weight c ≤
            get_severity_weight (omax acc i.severity) := by
          rw [hc]
          exact omax_left_le c i.severity
        exact le_trans hle hOm
      · intro j hj hqj
        rcases List.mem_cons.mp hj with rfl | hj'
        · exact le_trans (omax_right_le acc j.severity) hOm
        · exact h3 j hj' hqj
    · rw [if_neg hq] at h
      obtain ⟨h1, h2, h3⟩ := ih acc s h
      refine ⟨?_, h2, ?_⟩
      · rcases h1 with heq | ⟨j, hj, hqj, hsj⟩
        · exact Or.inl heq
        · exact Or.inr ⟨j, List.mem_cons_of_mem i hj, hqj, hsj⟩
      · intro j hj hqj
        rcases List.mem_cons.mp hj with rfl | hj'
        · exact absurd hqj hq
        · exact h3 j hj' hqj

lemma severity_weight_inj (a b : Severity)
    (h : get_severity_weight a = get_severity_weight b) : a = b := by
  revert h
  cases a <;> cases b <;> decide

lemma affected_lookup_some_iff (incs : List Incident)
    (cs : List (String × EdgeData)) (e : String) (s : Severity) :
    lookupKey e (get_affected_route_edges incs cs) = some s ↔
      ((∃ i ∈ incs, edge_qualifies i e cs ∧ i.severity = s) ∧
        ∀ i ∈ incs, edge_qualifies i e cs →
          get_severity_weight i.severity ≤ get_severity_weight s) := by
  constructor
  · intro h
    have h' : incs.foldl (fun acc inc =>
        if edge_qualifies inc e cs then some (omax acc inc.severity) else acc)
        (lookupKey e ([] : List (String × Severity))) = some s := by
      rw [← affected_fold_lookup]
      exact h
    obtain ⟨h1, _, h3⟩ := fold_some_sound e cs incs none s h'
    rcases h1 with heq | hex
    · exact absurd heq (by simp)
    · exact ⟨hex, h3⟩
  · rintro ⟨⟨i, hi, hqi, hsi⟩, hmax⟩
    have hsome : (lookupKey e (get_affected_route_edges incs cs)).isSome :=
      (affected_isSome_iff incs cs e).mpr ⟨i, hi, hqi⟩
    obtain ⟨s', hs'⟩ := Option.isSome_iff_exists.mp hsome
    have h' : incs.foldl (fun acc inc =>
        if edge_qualifies inc e cs then some (omax acc inc.severity) else acc)
        (lookupKey e ([] : List (String × Severity))) = some s' := by
      rw [← affected_fold_lookup]
      exact hs'
    obtain ⟨h1, _, h3⟩ := fold_some_sound e cs incs none s' h'
    rcases h1 with heq | ⟨j, hj, hqj, hsj⟩
    · exact absurd heq (by simp)
    · have hss : s' = s := by
        apply severity_weight_inj
        apply le_antisymm
        · rw [← hsj]
          exact hmax j hj hqj
        · rw [← hsi]
          exact h3 i hi hqi
      rw [hss] at hs'
      exact hs'

/-- Claim C1: an edge id appears in the affected-edge map iff some
incident's distance to that edge's centroid is within the incident's
effective (dynamic) radius, with the local-coordinate and the GPS
fallback formulas as in the source. -/
theorem C1_affected_iff_within_radius (incidents : List Incident)
    (centers : List (String × EdgeData)) (e : String) :
    (lookupKey e (get_affected_route_edges incidents centers)).isSome ↔
      ∃ inc ∈ incidents, ∃ d, (e, d) ∈ centers ∧
        incident_edge_distance inc d ≤ dynamic_radius inc d := by
  rw [affected_isSome_iff]
  simp only [edge_qualifies, covers]

/-- Claim C2: the severity recorded for an affected edge is the maximum
severity rank over all incidents covering it, and the resulting map
(as an edge id → severity mapping) is invariant under permutation of the
incident list. -/
theorem C2_affected_severity_max_perm_invariant (incidents : List Incident)
    (centers : List (String × EdgeData)) :
    (∀ e s, lookupKey e (get_affected_route_edges incidents centers) = some s ↔
      ((∃ inc ∈ incidents, edge_qualifies inc e centers ∧ inc.severity = s) ∧
        ∀ inc ∈ incidents, edge_qualifies inc e centers →
          get_severity_weight inc.severity ≤ get_severity_weight s)) ∧
    (∀ incidents', incidents.Perm incidents' → ∀ e,
      lookupKey e (get_affected_route_edges incidents centers) =
        lookupKey e (get_affected_route_edges incidents' centers)) := by
  refine ⟨fun e s => affected_lookup_some_iff incidents centers e s,
    fun incidents' hperm e => ?_⟩
  cases h : lookupKey e (get_affected_route_edges incidents centers) with
  | none =>
    cases h' : lookupKey e (get_affected_route_edges incidents' centers) with
    | none => rfl
    | some s =>
      obtain ⟨⟨i, hi, hqi, _⟩, _⟩ :=
        (affected_lookup_some_iff incidents' centers e s).mp h'
      have : (lookupKey e (get_affected_route_edges incidents centers)).isSome :=
        (affected_isSome_iff incidents centers e).mpr
          ⟨i, hperm.mem_iff.mpr hi, hqi⟩
      rw [h] at this
      exact absurd this (by simp)
  | some s =>
    obtain ⟨⟨i, hi, hqi, hsi⟩, hmax⟩ :=
      (affected_lookup_some_iff incidents centers e s).mp h
    exact ((affected_lookup_some_iff incidents' centers e s).mpr
      ⟨⟨i, hperm.mem_iff.mp hi, hqi, hsi⟩,
        fun j hj hqj => hmax j (hperm.mem_iff.mpr hj) hqj⟩).symm

/-- Witness for C2: a concrete two-incident batch and its swap. -/
theorem C2_affected_severity_max_perm_invariant_witness :
    ([cexA, cexB] : List Incident).Perm [cexB, cexA] ∧
    ∀ e, lookupKey e (get_affected_route_edges [cexA, cexB] []) =
      lookupKey e (get_affected_route_edges [cexB, cexA] []) :=
  ⟨List.Perm.swap cexB cexA [],
    (C2_affected_severity_max_perm_invariant [cexA, cexB] []).2
      [cexB, cexA] (List.Perm.swap cexB cexA [])⟩

/-! ## GeoIndex build (`get_edge_centers_for_routes`, lines 451–510) -/

/-- The TraCI geometry oracle: each field models one `traci` query, with
`none` standing for the query raising an exception. -/
structure Sim where
  getLaneNumber : String → Option Nat
  laneShape : String → Option (List (ℚ × ℚ))
  edgeShape : String → Option (List (ℚ × ℚ))
  fromJunction : String → Option String
  toJunction : String → Option String
  junctionPosition : String → Option (ℚ × ℚ)
  edgeLength : String → Option ℚ

/-- Lines 467–473: concatenate the shapes of lanes `f"{edge}_{i}"`,
skipping lanes whose shape query fails. -/
def lane_coords (sim : Sim) (edge : String) (laneCount : Nat) :
    List (ℚ × ℚ) :=
  (List.range laneCount).foldl
    (fun coords i =>
      match sim.laneShape (edge ++ "_" ++ toString i) with
      | some shape => coords ++ shape
      | none => coords) []

/-- Lines 463–487: resolve the vertex list of an edge by, in order, lane
shapes, the edge's own shape, then its endpoint junction positions;
`none` when nothing resolves (the edge is skipped). -/
def resolve_edge_coords (sim : Sim) (edge : String) : Option (List (ℚ × ℚ)) :=
  match sim.getLaneNumber edge with
  | none => none
  | some laneCount =>
    let coords := lane_coords sim edge laneCount
    if coords.isEmpty then
      match sim.edgeShape edge with
      | some shape => some shape
      | none =>
        match sim.fromJunction edge, sim.toJunction edge with
        | some fj, some tj =>
          match sim.junctionPosition fj, sim.junctionPosition tj with
          | some fp, some tp => some [fp, tp]
          | _, _ => none
        | _, _ => none
    else some coords

/-- Lines 489–504: an edge's `centers` entry — centroid of the resolved
vertices and the edge length (placeholder 100 when the query fails);
`none` when no (non-empty) vertex list resolved. -/
def edge_center_entry (sim : Sim) (edge : String) : Option EdgeData :=
  match resolve_edge_coords sim edge with
  | none => none
  | some coords =>
    if coords.isEmpty then none
    else
      some { x := (coords.map Prod.fst).sum / coords.length,
             y := (coords.map Prod.snd).sum / coords.length,
             length := (sim.edgeLength edge).getD 100 }

/-- Lines 455–458: the set of edges referenced by any route. -/
def route_edge_set (routes : List (String × List String)) : List String :=
  ((routes.map Prod.snd).flatten).dedup

/-- `get_edge_centers_for_routes(routes)` against the TraCI oracle. -/
def get_edge_centers_for_routes (sim : Sim)
    (routes : List (String × List String)) : List (String × EdgeData) :=
  (route_edge_set routes).foldl
    (fun centers edge =>
      match edge_center_entry sim edge with
      | some d => centers ++ [(edge, d)]
      | none => centers) []

/-! ### GeoIndex lemmas (claim C8) -/

lemma lookupKey_append_of_some {α : Type} {k : String} {v : α} :
    ∀ (m l : List (String × α)), lookupKey k m = some v →
      lookupKey k (m ++ l) = some v := by
  intro m l
  induction m with
  | nil => simp [lookupKey]
  | cons p rest ih =>
    intro h
    by_cases hp : p.1 = k
    · rw [lookupKey, if_pos hp] at h
      simpa [lookupKey, hp] using h
    · rw [lookupKey, if_neg hp] at h
      simpa [lookupKey, hp] using ih h

lemma centers_fold_lookup (sim : Sim) (e : String) :
    ∀ (edges : List String) (acc : List (String × EdgeData)),
    lookupKey e (edges.foldl
      (fun centers edge =>
        match edge_center_entry sim edge with
        | some d => centers ++ [(edge, d)]
        | none => centers) acc) =
      match lookupKey e acc with
      | some d => some d
      | none => if e ∈ edges then edge_center_entry sim e else none := by
  intro edges
  induction edges with
  | nil =>
    intro acc
    cases h : lookupKey e acc <;> simp [h]
  | cons x t ih =>
    intro acc
    simp only [List.foldl_cons]
    rw [ih]
    by_cases hx : x = e
    · subst hx
      cases hent : edge_center_entry sim x with
      | some d =>
        cases hacc : lookupKey x acc with
        | some d0 =>
          rw [lookupKey_append_of_some acc [(x, d)] hacc]
        | none =>
          rw [lookupKey_append_single_self acc hacc]
          simp
      | none =>
        cases hacc : lookupKey x acc with
        | some d0 => rfl
        | none => simp
    · have hlk : ∀ acc' : List (String × EdgeData),
          lookupKey e (match edge_center_entry sim x with
            | some d => acc' ++ [(x, d)]
            | none => acc') = lookupKey e acc' := by
        intro acc'
        cases edge_center_entry sim x with
        | some d => exact lookupKey_append_single_other (fun h => hx h.symm) acc'
        | none => rfl
      rw [hlk]
      cases hacc : lookupKey e acc with
      | some d0 => rfl
      | none =>
        have hex : ¬ e = x := fun h => hx h.symm
        simp [List.mem_cons, hex]

lemma centers_lookup (sim : Sim) (routes : List (String × List String))
    (e : String) :
    lookupKey e (get_edge_centers_for_routes sim routes) =
      if e ∈ route_edge_set routes then edge_center_entry sim e else none := by
  rw [get_edge_centers_for_routes, centers_fold_lookup]
  rfl

/-- Claim C8: the GeoIndex has an entry for an edge iff the edge is
referenced by a route and its geometry resolves (lane shapes, else edge
shape, else junction endpoints) to a non-empty vertex list; the stored
centroid is the mean of the resolved vertices and the length defaults to
the placeholder 100; unresolvable edges are absent while the rest of the
build is unaffected. -/
theorem C8_geoindex_characterization (sim : Sim)
    (routes : List (String × List String)) (e : String) :
    (lookupKey e (get_edge_centers_for_routes sim routes) =
      if e ∈ route_edge_set routes then edge_center_entry sim e else none) ∧
    (e ∈ route_edge_set routes ↔ ∃ p ∈ routes, e ∈ p.2) ∧
    ((lookupKey e (get_edge_centers_for_routes sim routes)).isSome ↔
      e ∈ route_edge_set routes ∧
        ∃ coords, resolve_edge_coords sim e = some coords ∧ coords ≠ []) ∧
    (∀ d, lookupKey e (get_edge_centers_for_routes sim routes) = some d →
      ∃ coords, resolve_edge_coords sim e = some coords ∧ coords ≠ [] ∧
        d.x = (coords.map Prod.fst).sum / coords.length ∧
        d.y = (coords.map Prod.snd).sum / coords.length ∧
        d.length = (sim.edgeLength e).getD 100) := by
  refine ⟨centers_lookup sim routes e, ?_, ?_, ?_⟩
  · rw [route_edge_set, List.mem_dedup, List.mem_flatten]
    constructor
    · rintro ⟨l, hl, hel⟩
      obtain ⟨p, hp, rfl⟩ := List.mem_map.mp hl
      exact ⟨p, hp, hel⟩
    · rintro ⟨p, hp, hep⟩
      exact ⟨p.2, List.mem_map.mpr ⟨p, hp, rfl⟩, hep⟩
  · rw [centers_lookup]
    by_cases hm : e ∈ route_edge_set routes
    · rw [if_pos hm]
      cases hr : resolve_edge_coords sim e with
      | none =>
        simp [edge_center_entry, hr, hm]
      | some coords =>
        by_cases hc : coords.isEmpty
        · simp [edge_center_entry, hr, hc, List.isEmpty_iff.mp hc]
        · simp only [edge_center_entry, hr, if_neg hc, Option.isSome_some,
            true_iff]
          exact ⟨hm, coords, rfl, fun h => hc (by rw [h]; rfl)⟩
    · simp [if_neg hm, hm]
  · intro d hd
    rw [centers_lookup] at hd
    by_cases hm : e ∈ route_edge_set routes
    · rw [if_pos hm] at hd
      cases hr : resolve_edge_coords sim e with
      | none => simp [edge_center_entry, hr] at hd
      | some coords =>
        simp only [edge_center_entry, hr] at hd
        by_cases hc : coords.isEmpty
        · rw [if_pos hc] at hd
          exact absurd hd (by simp)
        · rw [if_neg hc] at hd
          refine ⟨coords, rfl, fun h => hc (by rw [h]; rfl), ?_, ?_, ?_⟩ <;>
            rw [← Option.some.inj hd]
    · rw [if_neg hm] at hd
      exact absurd hd (by simp)

/-! ## Incident polling (`get_incidents`, lines 512–574) -/

/-- Substring test (Python `word in title`). -/
def strContains : List Char → List Char → Bool
  | hay, needle =>
    match hay with
    | [] => needle.isEmpty
    | _ :: t => needle.isPrefixOf hay || strContains t needle

/-- High-severity keywords (line 415). -/
def high_severity_words : List String :=
  ["gesperrt", "vollsperrung", "blocked", "closed"]

/-- Medium-severity keywords (line 418). -/
def medium_severity_words : List String :=
  ["baustelle", "construction", "roadwork", "lane"]

/-- `get_incident_severity(incident_data)` (lines 410–422), as a function
of the title text: case-insensitive keyword match, high → medium → low. -/
def get_incident_severity (title : String) : Severity :=
  let t := title.toLower
  if high_severity_words.any (fun w => strContains t.toList w.toList) then .high
  else if medium_severity_words.any (fun w => strContains t.toList w.toList) then
    .medium
  else .low

/-- A JSON value found in a coordinate field: `float()` either parses it
(`num`) or raises `ValueError`/`TypeError` (`malformed` — e.g. a
non-numeric string or `null`). -/
inductive FeedValue where
  | num (q : ℚ)
  | malformed
deriving DecidableEq, Repr

/-- One element of a service's item list.  `.notDict` models an element
that is not a JSON object, on which `it.get("coordinate", {})` (line 533)
raises `AttributeError` — an exception the inner
`except RequestException` does not catch.  `.item` carries the title, the
start timestamp, and the coordinate values when both `lat` and `long`
keys are present (items without both keys are dropped, line 534). -/
inductive FeedItem where
  | notDict
  | item (title startTimestamp : String)
      (coordinate : Option (FeedValue × FeedValue))
deriving DecidableEq, Repr

/-- A decoded 200-response body.  `.notDict` models a body whose JSON
decodes to a non-object, on which `data.get(service, [])` (line 530)
raises `AttributeError`; `.items` is the service key's item list (a
missing key yields `.items []`). -/
inductive FeedPayload where
  | notDict
  | items (its : List FeedItem)
deriving DecidableEq, Repr

/-- The outcome of one `(area, service)` request.  `.reqError` is a
`requests.exceptions.RequestException` — timeout, transport failure, or a
body that fails JSON decoding — which the inner `except` (line 561)
catches; `.response` is a received response with its status code and
decoded payload. -/
inductive FeedResult where
  | reqError
  | response (status : Nat) (payload : FeedPayload)
deriving DecidableEq, Repr

/-- Request-level failure of a pair: an exception caught by the inner
handler, or a non-success status (line 527).  These are exactly the
failures the source absorbs with `continue`. -/
def pairFailed : FeedResult → Prop
  | .reqError => True
  | .response st _ => st ≠ 200

/-- Lines 542–557: the incident dict built for one accepted item; the
synthetic id uses the running length of the accumulated incident list. -/
def make_incident (area service : String)
    (transform : ℚ → ℚ → Option (ℚ × ℚ)) (title startTimestamp : String)
    (lat lon : ℚ) (n : Nat) : Incident :=
  { id := area ++ "_" ++ service ++ "_" ++ toString n,
    title := title.trim,
    latitude := lat,
    longitude := lon,
    category := service,
    area := area,
    severity := get_incident_severity title,
    timestamp := startTimestamp,
    localXY := transform lat lon }

/-- The item loop for one pair (lines 532–559).  `.ok` is normal
completion; `.error` is an exception (non-dict item, or `float()` on a
malformed coordinate value) escaping the inner `except RequestException`.
Both carry the incident list accumulated so far, since the source mutates
one `incidents` list in place. -/
def process_items (area service : String)
    (transform : ℚ → ℚ → Option (ℚ × ℚ)) :
    List FeedItem → List Incident → Except (List Incident) (List Incident)
  | [], acc => .ok acc
  | .notDict :: _, acc => .error acc
  | .item _ _ none :: rest, acc => process_items area service transform rest acc
  | .item title ts (some (.num lat, .num lon)) :: rest, acc =>
    process_items area service transform rest
      (acc ++ [make_incident area service transform title ts lat lon acc.length])
  | .item _ _ (some _) :: _, acc => .error acc

/-- One `(area, service)` request (lines 524–561): a request exception or
a non-200 status is swallowed (`continue`); a decoded 200 payload is
processed, its shape errors raising past the inner handler. -/
def fetch_pair (fetch : String → String → FeedResult)
    (transform : ℚ → ℚ → Option (ℚ × ℚ)) (acc : List Incident)
    (area service : String) : Except (List Incident) (List Incident) :=
  match fetch area service with
  | .reqError => .ok acc
  | .response st payload =>
    if st ≠ 200 then .ok acc
    else
      match payload with
      | .notDict => .error acc
      | .items its => process_items area service transform its acc

/-- The `(area, service)` pairs in the order the nested loops over
`areas = ["A2", "A39"]` and `["warning", "roadworks"]` (lines 519–523)
visit them. -/
def incident_pairs : List (String × String) :=
  [("A2", "warning"), ("A2", "roadworks"), ("A39", "warning"), ("A39", "roadworks")]

/-- The polling loops: an exception escaping one pair's processing aborts
every remaining pair, carrying the partial batch. -/
def poll_pairs (fetch : String → String → FeedResult)
    (transform : ℚ → ℚ → Option (ℚ × ℚ)) :
    List (String × String) → List Incident →
      Except (List Incident) (List Incident)
  | [], acc => .ok acc
  | (a, s) :: rest, acc =>
    match fetch_pair fetch transform acc a s with
    | .ok acc' => poll_pairs fetch transform rest acc'
    | .error acc' => .error acc'

/-- `get_incidents()` (lines 512–574): on normal completion the batch is
deduplicated (line 567); when an exception reaches the outer
`except Exception` (line 572) the partial batch is returned as-is —
the remaining pairs and the deduplication are skipped — but no exception
propagates to the caller. -/
noncomputable def get_incidents (fetch : String → String → FeedResult)
    (transform : ℚ → ℚ → Option (ℚ × ℚ)) : List Incident :=
  match poll_pairs fetch transform incident_pairs [] with
  | .ok incidents => remove_duplicate_incidents incidents
  | .error incidents => incidents

/-- Point-update of the fetch oracle at one `(area, service)` pair. -/
def update_fetch (fetch : String → String → FeedResult)
    (area service : String) (r : FeedResult) : String → String → FeedResult :=
  fun a s => if a = area ∧ s = service then r else fetch a s

/-- The incident list carried by either outcome of the poll. -/
def exceptList : Except (List Incident) (List Incident) → List Incident
  | .ok l => l
  | .error l => l

/-! ### Feed lemmas (claim C6) -/

lemma process_items_mem (area service : String)
    (transform : ℚ → ℚ → Option (ℚ × ℚ)) :
    ∀ (its : List FeedItem) (acc : List Incident) (inc : Incident),
    inc ∈ exceptList (process_items area service transform its acc) →
    inc ∈ acc ∨ (inc.area = area ∧ inc.category = service) := by
  intro its
  induction its with
  | nil => exact fun acc inc h => Or.inl h
  | cons it rest ih =>
    intro acc inc h
    cases it with
    | notDict => exact Or.inl h
    | item title ts coord =>
      cases coord with
      | none => exact ih acc inc h
      | some p =>
        obtain ⟨lv, wv⟩ := p
        cases lv with
        | malformed => cases wv <;> exact Or.inl h
        | num lat =>
          cases wv with
          | malformed => exact Or.inl h
          | num lon =>
            rcases ih _ inc h with hmem | hp
            · rcases List.mem_append.mp hmem with h1 | h2
              · exact Or.inl h1
              · rw [List.mem_singleton] at h2
                subst h2
                exact Or.inr ⟨rfl, rfl⟩
            · exact Or.inr hp

lemma fetch_pair_mem {fetch : String → String → FeedResult}
    {transform : ℚ → ℚ → Option (ℚ × ℚ)} {acc : List Incident}
    {a s : String} {inc : Incident}
    (h : inc ∈ exceptList (fetch_pair fetch transform acc a s)) :
    inc ∈ acc ∨
      (inc.area = a ∧ inc.category = s ∧ ¬ pairFailed (fetch a s)) := by
  cases hf : fetch a s with
  | reqError =>
    simp only [fetch_pair, hf] at h
    exact Or.inl h
  | response st payload =>
    simp only [fetch_pair, hf] at h
    by_cases hst : st ≠ 200
    · rw [if_pos hst] at h
      exact Or.inl h
    · rw [if_neg hst] at h
      cases payload with
      | notDict => exact Or.inl h
      | items its =>
        rcases process_items_mem a s transform its acc inc h with h1 | hp
        · exact Or.inl h1
        · exact Or.inr ⟨hp.1, hp.2, by simp [pairFailed, hst]⟩

lemma poll_pairs_mem {fetch : String → String → FeedResult}
    {transform : ℚ → ℚ → Option (ℚ × ℚ)} :
    ∀ (pairs : List (String × String)) (acc : List Incident) (inc : Incident),
    inc ∈ exceptList (poll_pairs fetch transform pairs acc) →
    inc ∈ acc ∨ ∃ p ∈ pairs, inc.area = p.1 ∧ inc.category = p.2 ∧
      ¬ pairFailed (fetch p.1 p.2) := by
  intro pairs
  induction pairs with
  | nil => exact fun acc inc h => Or.inl h
  | cons p rest ih =>
    obtain ⟨a, s⟩ := p
    intro acc inc h
    cases hfp : fetch_pair fetch transform acc a s with
    | ok acc' =>
      have h' : inc ∈ exceptList (poll_pairs fetch transform rest acc') := by
        simpa only [poll_pairs, hfp] using h
      rcases ih acc' inc h' with hmem | ⟨q, hq, hprop⟩
      · have hm : inc ∈ exceptList (fetch_pair fetch transform acc a s) := by
          rw [hfp]
          exact hmem
        rcases fetch_pair_mem hm with h1 | hp
        · exact Or.inl h1
        · exact Or.inr ⟨(a, s), List.mem_cons_self _ _, hp.1, hp.2.1, hp.2.2⟩
      · exact Or.inr ⟨q, List.mem_cons_of_mem _ hq, hprop⟩
    | error acc' =>
      have h' : inc ∈ acc' := by
        simpa only [poll_pairs, hfp, exceptList] using h
      have hm : inc ∈ exceptList (fetch_pair fetch transform acc a s) := by
        rw [hfp]
        exact h'
      rcases fetch_pair_mem hm with h1 | hp
      · exact Or.inl h1
      · exact Or.inr ⟨(a, s), List.mem_cons_self _ _, hp.1, hp.2.1, hp.2.2⟩

lemma remove_dup_subset :
    ∀ (l : List Incident) (x : Incident),
    x ∈ remove_duplicate_incidents l → x ∈ l := by
  have hgen : ∀ (l acc : List Incident) (x : Incident),
      x ∈ l.foldl (fun uniques inc =>
        if has_duplicate_in inc uniques then uniques else uniques ++ [inc])
        acc → x ∈ acc ∨ x ∈ l := by
    intro l
    induction l with
    | nil => exact fun acc x h => Or.inl h
    | cons i rest ih =>
      intro acc x h
      rw [List.foldl_cons] at h
      by_cases hd : has_duplicate_in i acc
      · rw [if_pos hd] at h
        rcases ih acc x h with h1 | h2
        · exact Or.inl h1
        · exact Or.inr (List.mem_cons_of_mem _ h2)
      · rw [if_neg hd] at h
        rcases ih _ x h with h1 | h2
        · rcases List.mem_append.mp h1 with ha | hb
          · exact Or.inl ha
          · rw [List.mem_singleton] at hb
            subst hb
            exact Or.inr (List.mem_cons_self _ _)
        · exact Or.inr (List.mem_cons_of_mem _ h2)
  intro l x h
  rcases hgen l [] x h with h1 | h2
  · simp at h1
  · exact h2

lemma get_incidents_mem {fetch : String → String → FeedResult}
    {transform : ℚ → ℚ → Option (ℚ × ℚ)} {inc : Incident}
    (h : inc ∈ get_incidents fetch transform) :
    inc ∈ exceptList (poll_pairs fetch transform incident_pairs []) := by
  cases hp : poll_pairs fetch transform incident_pairs [] with
  | ok l =>
    simp only [get_incidents, hp] at h
    exact remove_dup_subset l inc h
  | error l =>
    simp only [get_incidents, hp] at h
    exact h

lemma fetch_pair_congr {f f' : String → String → FeedResult}
    (transform : ℚ → ℚ → Option (ℚ × ℚ)) {a s : String}
    (h : f' a s = f a s ∨
      (pairFailed (f a s) ∧ f' a s = .response 200 (.items []))) :
    ∀ acc, fetch_pair f' transform acc a s = fetch_pair f transform acc a s := by
  intro acc
  rcases h with heq | ⟨hfail, heq⟩
  · rw [fetch_pair, fetch_pair, heq]
  · have hstep : fetch_pair f' transform acc a s = .ok acc := by
      simp only [fetch_pair, heq]
      rw [if_neg (by simp)]
      rfl
    rw [hstep]
    cases hf : f a s with
    | reqError => simp only [fetch_pair, hf]
    | response st payload =>
      simp only [pairFailed, hf] at hfail
      simp only [fetch_pair, hf]
      rw [if_pos hfail]

lemma poll_pairs_congr {f f' : String → String → FeedResult}
    (transform : ℚ → ℚ → Option (ℚ × ℚ))
    (h : ∀ a s, f' a s = f a s ∨
      (pairFailed (f a s) ∧ f' a s = .response 200 (.items []))) :
    ∀ (pairs : List (String × String)) (acc : List Incident),
    poll_pairs f' transform pairs acc = poll_pairs f transform pairs acc := by
  intro pairs
  induction pairs with
  | nil => exact fun acc => rfl
  | cons p rest ih =>
    obtain ⟨a, s⟩ := p
    intro acc
    rw [poll_pairs, poll_pairs, fetch_pair_congr transform (h a s)]
    cases fetch_pair f transform acc a s with
    | ok acc' => exact ih acc'
    | error acc' => rfl

/-- The first, well-formed item of the malformed pair in the C6
counterexample. -/
def cexGoodItem : FeedItem :=
  .item "Stau nach Unfall" "2024" (some (.num 52, .num 10))

/-- The malformed item: its latitude value does not parse as a float, so
line 535 raises past the inner `except RequestException`. -/
def cexBadItem : FeedItem :=
  .item "Vollsperrung" "2024" (some (.malformed, .num 10))

/-- A well-formed item served by the healthy pairs. -/
def cexOtherItem : FeedItem :=
  .item "Stau" "2024" (some (.num 53, .num 11))

/-- The C6 counterexample oracle: `("A2", "warning")` answers 200 with a
decodable payload whose second item is malformed; every other pair
answers 200 with one well-formed item. -/
def cexFetch : String → String → FeedResult :=
  fun a s =>
    if a = "A2" ∧ s = "warning" then .response 200 (.items [cexGoodItem, cexBadItem])
    else .response 200 (.items [cexOtherItem])

/-- The concrete (always-unavailable) projection used by the C6
counterexample and witness. -/
def transform0 : ℚ → ℚ → Option (ℚ × ℚ) := fun _ _ => none

/-- Counterexample to claim C6 as stated: the `("A2", "warning")` payload
decodes (status 200, not a request-level failure) but its second item
carries a non-numeric latitude, so `float()` raises past the inner
`except RequestException` into the outer `except Exception` (line 572).
The poll aborts: the malformed pair's first item IS in the returned batch
(its contribution is not zero), and the later, healthy pairs — e.g.
`("A39", "warning")`, a 200 success with a well-formed coordinate item —
contribute nothing, refuting the claimed isolation. -/
theorem C6_malformed_payload_counterexample :
    cexFetch "A2" "warning" = .response 200 (.items [cexGoodItem, cexBadItem]) ∧
    ¬ pairFailed (cexFetch "A2" "warning") ∧
    cexFetch "A39" "warning" = .response 200 (.items [cexOtherItem]) ∧
    get_incidents cexFetch transform0 =
      [make_incident "A2" "warning" transform0 "Stau nach Unfall" "2024" 52 10 0] ∧
    (∃ inc ∈ get_incidents cexFetch transform0,
      inc.area = "A2" ∧ inc.category = "warning") ∧
    (∀ inc ∈ get_incidents cexFetch transform0, ¬ inc.area = "A39") := by
  have heval : get_incidents cexFetch transform0 =
      [make_incident "A2" "warning" transform0 "Stau nach Unfall" "2024" 52 10 0] :=
    rfl
  refine ⟨rfl, by simp [cexFetch, pairFailed], rfl, heval, ?_, ?_⟩
  · refine ⟨make_incident "A2" "warning" transform0 "Stau nach Unfall" "2024" 52 10 0,
      ?_, rfl, rfl⟩
    rw [heval]
    exact List.mem_singleton.mpr rfl
  · intro inc hmem
    rw [heval, List.mem_singleton] at hmem
    subst hmem
    intro hc
    exact absurd hc (by decide)

/-- Claim C6 (amended): only a REQUEST-LEVEL failure of one
`(area, category)` pair — a `requests` exception (timeout, transport
error, undecodable body) or a non-success status — is isolated: that pair
contributes zero incidents and the poll result is exactly the one
obtained had the pair returned an empty success, so every other pair's
contribution is untouched and no exception reaches the caller.  (A
payload that decodes but is malformed in shape instead aborts the
remaining pairs and skips deduplication — see the counterexample.) -/
theorem C6_reqlevel_failure_isolated (fetch : String → String → FeedResult)
    (transform : ℚ → ℚ → Option (ℚ × ℚ)) (area service : String)
    (hfail : pairFailed (fetch area service)) :
    (∀ inc ∈ get_incidents fetch transform,
      ¬ (inc.area = area ∧ inc.category = service)) ∧
    get_incidents fetch transform =
      get_incidents (update_fetch fetch area service (.response 200 (.items [])))
        transform := by
  constructor
  · intro inc hmem hc
    rcases poll_pairs_mem incident_pairs [] inc (get_incidents_mem hmem) with
      h1 | ⟨p, _, hpa, hpc, hok⟩
    · simp at h1
    · apply hok
      have h1 : p.1 = area := hpa.symm.trans hc.1
      have h2 : p.2 = service := hpc.symm.trans hc.2
      rw [h1, h2]
      exact hfail
  · have hc : ∀ a s,
        update_fetch fetch area service (.response 200 (.items [])) a s =
          fetch a s ∨
        (pairFailed (fetch a s) ∧
          update_fetch fetch area service (.response 200 (.items [])) a s =
            .response 200 (.items [])) := by
      intro a s
      rw [update_fetch]
      by_cases hps : a = area ∧ s = service
      · rw [if_pos hps, hps.1, hps.2]
        exact Or.inr ⟨hfail, rfl⟩
      · rw [if_neg hps]
        exact Or.inl rfl
    rw [get_incidents, get_incidents, poll_pairs_congr transform hc]

/-- A concrete oracle for the C6 witness: the `("A2", "warning")` request
times out, every other pair succeeds with an empty item list. -/
def fetch0 : String → String → FeedResult :=
  fun a s => if a = "A2" ∧ s = "warning" then .reqError
    else .response 200 (.items [])

/-- Witness for the amended C6 at the concrete oracle `fetch0`. -/
theorem C6_reqlevel_failure_isolated_witness :
    pairFailed (fetch0 "A2" "warning") ∧
    ((∀ inc ∈ get_incidents fetch0 transform0,
      ¬ (inc.area = "A2" ∧ inc.category = "warning")) ∧
    get_incidents fetch0 transform0 =
      get_incidents (update_fetch fetch0 "A2" "warning" (.response 200 (.items [])))
        transform0) := by
  have hp : pairFailed (fetch0 "A2" "warning") := by
    simp [fetch0, pairFailed]
  exact ⟨hp, C6_reqlevel_failure_isolated fetch0 transform0 "A2" "warning" hp⟩

/-! ## Incident comparison and the per-cycle incident check
(`compare_incidents_accurately`, lines 659–668; `run_simulation`,
lines 786–821) -/

/-- `compare_incidents_accurately(prev_incidents, new_incidents)`:
`(len(new_ids - prev_ids), len(prev_ids - new_ids))`. -/
def compare_incidents_accurately (prev current : List Incident) : Nat × Nat :=
  let prev_ids := (prev.map (fun i => i.id)).toFinset
  let new_ids := (current.map (fun i => i.id)).toFinset
  ((new_ids \ prev_ids).card, (prev_ids \ new_ids).card)

/-- What one 15-minute incident check of the simulation loop does. -/
structure CycleOutcome where
  /-- whether `get_affected_route_edges` was invoked this cycle. -/
  correlated : Bool
  affected : List (String × Severity)
  /-- ids of the vehicles given a `rerouteTraveltime` call. -/
  rerouted : List String
  prevIncidents : List Incident
deriving Repr

/-- The incident branch of the simulation loop (lines 786–821): when both
the new and the resolved count are zero nothing happens and
`prev_incidents` is kept; otherwise, with a non-empty edge-centers cache,
the correlation runs and every active vehicle whose route meets an
affected edge is rerouted, and `prev_incidents` is replaced. -/
noncomputable def incident_cycle (prev current : List Incident)
    (cache : List (String × EdgeData))
    (vehicles : List (String × List String)) : CycleOutcome :=
  let counts := compare_incidents_accurately prev current
  if counts.1 > 0 ∨ counts.2 > 0 then
    if cache.isEmpty then
      { correlated := false, affected := [], rerouted := [],
        prevIncidents := current }
    else
      let affected := get_affected_route_edges current cache
      let rerouted :=
        if affected.isEmpty then []
        else (vehicles.filter
          (fun v => v.2.any (fun e => (lookupKey e affected).isSome))).map
          Prod.fst
      { correlated := true, affected := affected, rerouted := rerouted,
        prevIncidents := current }
  else
    { correlated := false, affected := [], rerouted := [],
      prevIncidents := prev }

/-- Claim C5: the new/resolved counts are the cardinalities of the id-set
differences; equal id sets give zero counts; and zero counts make the
cycle a no-op (no correlation, no reroute, `prev_incidents` kept). -/
theorem C5_compare_counts_no_action (prev current : List Incident)
    (cache : List (String × EdgeData))
    (vehicles : List (String × List String)) :
    compare_incidents_accurately prev current =
      (((current.map (fun i => i.id)).toFinset \
          (prev.map (fun i => i.id)).toFinset).card,
       ((prev.map (fun i => i.id)).toFinset \
          (current.map (fun i => i.id)).toFinset).card) ∧
    ((prev.map (fun i => i.id)).toFinset = (current.map (fun i => i.id)).toFinset →
      compare_incidents_accurately prev current = (0, 0)) ∧
    (compare_incidents_accurately prev current = (0, 0) →
      incident_cycle prev current cache vehicles =
        { correlated := false, affected := [], rerouted := [],
          prevIncidents := prev }) := by
  refine ⟨rfl, fun h => ?_, fun h => ?_⟩
  · simp [compare_incidents_accurately, h]
  · rw [incident_cycle]
    simp only [h]
    rw [if_neg (by simp)]

/-- Witness for C5 at the empty batches: both counts are zero, the id
sets are equal, and the cycle takes no action. -/
theorem C5_compare_counts_no_action_witness :
    ((([] : List Incident).map (fun i => i.id)).toFinset =
      (([] : List Incident).map (fun i => i.id)).toFinset) ∧
    compare_incidents_accurately [] [] = (0, 0) ∧
    incident_cycle [] [] [] [] =
      { correlated := false, affected := [], rerouted := [],
        prevIncidents := [] } := by
  have hz : compare_incidents_accurately [] [] = (0, 0) := by
    simp [compare_incidents_accurately]
  exact ⟨rfl, hz, (C5_compare_counts_no_action [] [] [] []).2.2 hz⟩

/-! ## Penalty writer (`write_weights_file`, lines 632–657) -/

/-- The physical content of the emitted `meandata` artifact: a single
interval with one `(edge id, traveltime)` entry per affected edge. -/
structure WeightsArtifact where
  beginTime : Int
  endTime : Int
  entries : List (String × Nat)
deriving DecidableEq, Repr

/-- The per-severity travel-time penalties (lines 637–641). -/
def severity_penalties : Severity → Nat
  | .high => 100000
  | .medium => 10000
  | .low => 2000

/-- The artifact body written on a non-empty map (lines 643–657):
one interval `begin=0, end=3600`, one edge element per affected edge. -/
def weights_artifact (affected : List (String × Severity)) : WeightsArtifact :=
  { beginTime := 0, endTime := 3600,
    entries := affected.map (fun p => (p.1, severity_penalties p.2)) }

/-- `write_weights_file(affected, filename)` as a file-system transformer:
an empty map returns immediately (line 634–635) touching nothing, else
the artifact is written to `filename`. -/
def write_weights_file (affected : List (String × Severity))
    (filename : String) (fs : String → Option WeightsArtifact) :
    String → Option WeightsArtifact :=
  if affected.isEmpty then fs
  else fun f => if f = filename then some (weights_artifact affected) else fs f

/-- Claim C9: on a non-empty affected map, the written artifact has one
entry per affected edge, penalties 100000/10000/2000 by severity, and a
single 0–3600 interval covering the whole simulation horizon. -/
theorem C9_weights_artifact_shape (affected : List (String × Severity))
    (filename : String) (fs : String → Option WeightsArtifact)
    (h : affected ≠ []) :
    write_weights_file affected filename fs filename =
      some (weights_artifact affected) ∧
    (weights_artifact affected).beginTime = 0 ∧
    (weights_artifact affected).endTime = 3600 ∧
    (weights_artifact affected).entries =
      affected.map (fun p => (p.1, severity_penalties p.2)) ∧
    (weights_artifact affected).entries.map Prod.fst = affected.map Prod.fst ∧
    severity_penalties .high = 100000 ∧
    severity_penalties .medium = 10000 ∧
    severity_penalties .low = 2000 := by
  refine ⟨?_, rfl, rfl, rfl, ?_, rfl, rfl, rfl⟩
  · rw [write_weights_file, if_neg (by simpa [List.isEmpty_iff] using h),
      if_pos rfl]
  · rw [weights_artifact]
    simp

/-- Witness for C9 at a one-edge map. -/
theorem C9_weights_artifact_shape_witness :
    (([("E1", Severity.high)] : List (String × Severity)) ≠ []) ∧
    (write_weights_file [("E1", Severity.high)] "edge_weights.xml"
        (fun _ => none) "edge_weights.xml" =
      some (weights_artifact [("E1", Severity.high)]) ∧
    (weights_artifact [("E1", Severity.high)]).beginTime = 0 ∧
    (weights_artifact [("E1", Severity.high)]).endTime = 3600 ∧
    (weights_artifact [("E1", Severity.high)]).entries =
      [("E1", Severity.high)].map (fun p => (p.1, severity_penalties p.2)) ∧
    (weights_artifact [("E1", Severity.high)]).entries.map Prod.fst =
      [("E1", Severity.high)].map Prod.fst ∧
    severity_penalties .high = 100000 ∧
    severity_penalties .medium = 10000 ∧
    severity_penalties .low = 2000) :=
  ⟨by simp, C9_weights_artifact_shape [("E1", Severity.high)]
    "edge_weights.xml" (fun _ => none) (by simp)⟩

/-- Claim C10: with an empty affected map `write_weights_file` returns
immediately and the file system is left untouched (any previously written
artifact survives); an artifact is only written when the map is
non-empty. -/
theorem C10_empty_map_writes_nothing (affected : List (String × Severity))
    (filename : String) (fs : String → Option WeightsArtifact)
    (h : affected = []) :
    write_weights_file affected filename fs = fs := by
  rw [write_weights_file, if_pos (by rw [h]; rfl)]

/-- Witness for C10: the empty map over an arbitrary concrete file
system. -/
theorem C10_empty_map_writes_nothing_witness :
    (([] : List (String × Severity)) = []) ∧
    write_weights_file [] "edge_weights.xml"
      (fun f => if f = "edge_weights.xml" then
        some (weights_artifact [("E0", Severity.low)]) else none) =
      (fun f => if f = "edge_weights.xml" then
        some (weights_artifact [("E0", Severity.low)]) else none) :=
  ⟨rfl, C10_empty_map_writes_nothing [] "edge_weights.xml" _ rfl⟩
